import Mathlib

/-!
Verification development for the PBC dataset pipeline
(data-processing/pbc-dataset): a whitespace-delimited clinical text file is
converted to CSV, loaded into a relational table, and turned into
survival-analysis feature data.  The Python sources are shallowly embedded
here: a pandas DataFrame becomes a list of column names together with
row-major lists of optional rationals (a missing value, NaN in memory, is
`none`); fallible operations return `Except String`.
-/

namespace PBC

/-- A cell of a DataFrame: `none` models a missing value (NaN). -/
abbrev Cell : Type := Option ℚ

/-- Shallow embedding of a pandas DataFrame: named columns, row-major data.
Every row is read through `List.getD`, so ragged rows simply read `none`
past their end. -/
structure DataFrame where
  cols : List String
  rows : List (List Cell)
  deriving Repr, DecidableEq

/-- Index of a column name, as pandas column lookup does. -/
def colIdx (df : DataFrame) (c : String) : Option ℕ :=
  df.cols.findIdx? (fun n => n == c)

/-- The values of the column at index `j`, one per row. -/
def colValsAt (df : DataFrame) (j : ℕ) : List Cell :=
  df.rows.map (fun r => r.getD j none)

/-- Embedding of `df[c]` for a single label: the column series, or a
KeyError when the label is absent. -/
def getColE (df : DataFrame) (c : String) : Except String (List Cell) :=
  match colIdx df c with
  | some j => Except.ok (colValsAt df j)
  | none => Except.error ("KeyError: " ++ c)

/-- The 20 raw PBC column names, in source order
(`extract_pbc_to_postgres.read_pbc_data` and `convert_pbc_to_csv`). -/
def pbcColumns : List String :=
  ["id", "futime", "status", "drug", "age", "sex", "ascites",
   "hepato", "spiders", "edema", "bili", "chol", "albumin",
   "copper", "alk_phos", "sgot", "trig", "platelet", "protime", "stage"]

/-! ## Embedding of `extract_pbc_to_postgres.insert_pbc_data` (C1, C6) -/

/-- Embedding of `DataFrame.fillna(value)` as called with a scalar or
`None`.  pandas raises `ValueError: Must specify a fill value or method`
when both `value` and `method` are `None`; with a scalar it replaces every
missing cell by that scalar. -/
def fillna (value : Option ℚ) (df : DataFrame) : Except String DataFrame :=
  match value with
  | none => Except.error ("ValueError: Must specify a fill value or method")
  | some v =>
      Except.ok { cols := df.cols,
                  rows := df.rows.map (fun r => r.map (fun c => some (c.getD v))) }

/-- Embedding of `insert_pbc_data` up to the row tuples handed to the
driver: the source runs `df_clean = df.fillna(None)` and then builds
`values = [tuple(row) for row in df_clean.values]`.  Returns those row
tuples (the SQL text itself is modelled by `upsert` below). -/
def insert_pbc_data (df : DataFrame) : Except String (List (List Cell)) :=
  (fillna none df).map (fun clean => clean.rows)

/-- The key of a row of `pbc_patients`: its first column, `id`. -/
def rowKey (r : List Cell) : Cell := r.getD 0 none

/-- Semantics of the `INSERT INTO pbc_patients ... ON CONFLICT (id) DO
UPDATE SET` statement of `insert_pbc_data`, on a table modelled as a list
of rows whose head cell is the key `id`: on conflict the existing row
keeps its key and every non-key column is overwritten with the excluded
(incoming) row's value; otherwise the row is appended. -/
def upsert (t : List (List Cell)) (r : List Cell) : List (List Cell) :=
  if t.any (fun x => rowKey x == rowKey r) then
    t.map (fun x =>
      if rowKey x == rowKey r then rowKey x :: r.drop 1 else x)
  else
    t ++ [r]

/-- `execute_values` applies the upsert statement to each row tuple in
order. -/
def upsertAll (t : List (List Cell)) (rs : List (List Cell)) : List (List Cell) :=
  rs.foldl upsert t

/-! ## Embedding of `convert_pbc_to_csv` derived columns (C2) -/

/-- Column names of `pbc_ml_ready.csv`: the 20 raw columns plus the five
derived ones, in the order the converter appends them. -/
def mlColumns : List String :=
  pbcColumns ++ ["age_years", "death_event", "male", "female", "drug_treatment"]

/-- One row of the derived-feature frame `df_ml`: the source row extended
with `age_years = age / 365.25`, `death_event = int(status == 2)`,
`male = int(sex == 0)`, `female = int(sex == 1)`,
`drug_treatment = int(drug == 1)`.  Comparison of a missing value with a
number is false in pandas, so each indicator is a present 0 or 1 even on
missing input.  Raw column positions: status 2, drug 3, age 4, sex 5. -/
def deriveRow (r : List Cell) : List Cell :=
  let status := r.getD 2 none
  let drug := r.getD 3 none
  let age := r.getD 4 none
  let sex := r.getD 5 none
  r ++ [age.map (fun a => a / (365.25 : ℚ)),
        some (if status = some 2 then 1 else 0),
        some (if sex = some 0 then 1 else 0),
        some (if sex = some 1 then 1 else 0),
        some (if drug = some 1 then 1 else 0)]

/-- The derived-feature frame `df_ml` built by `convert_pbc_to_csv` from
the raw frame. -/
def convertML (df : DataFrame) : DataFrame :=
  { cols := mlColumns, rows := df.rows.map deriveRow }

/-- The cell of column `c` at row `i`, looked up by name
(`none` when the column or row does not exist). -/
def getCell (df : DataFrame) (c : String) (i : ℕ) : Option Cell :=
  (colIdx df c).bind (fun j => (df.rows[i]?).map (fun r => r.getD j none))

/-! ## Embedding of `load_pbc_data.get_survival_data` (C4, C5, C9) -/

/-- Insert into a list kept in nondecreasing order. -/
def insortQ (x : ℚ) : List ℚ → List ℚ
  | [] => [x]
  | y :: ys => if x ≤ y then x :: y :: ys else y :: insortQ x ys

/-- Sort a list of rationals (insertion sort). -/
def sortQ : List ℚ → List ℚ
  | [] => []
  | x :: xs => insortQ x (sortQ xs)

/-- Embedding of the pandas `Series.median` used by
`X.fillna(X.median())`: the median of the present values — the middle
element of the sorted list for an odd count, the average of the two middle
elements for an even count, and `NaN` (here `none`) for an empty list. -/
def medianQ (l : List ℚ) : Option ℚ :=
  let s := sortQ l
  let n := s.length
  if n = 0 then none
  else if n % 2 = 1 then some (s.getD (n / 2) 0)
  else some ((s.getD (n / 2 - 1) 0 + s.getD (n / 2) 0) / 2)

/-- The present (non-missing) values of a cell list, in order: pandas
skips NaN when computing a median. -/
def presentVals (l : List Cell) : List ℚ := l.filterMap id

/-- Embedding of `df[feature_cols]` for a list of labels: the sub-frame
with exactly those columns, or a KeyError as soon as any label is absent
from the frame. -/
def selectCols (df : DataFrame) (names : List String) : Except String DataFrame :=
  if names.all (fun n => df.cols.contains n) then
    Except.ok { cols := names,
                rows := df.rows.map (fun r =>
                  names.map (fun n =>
                    match colIdx df n with
                    | some j => r.getD j none
                    | none => none)) }
  else
    Except.error ("KeyError: some requested columns are not in the frame")

/-- Column-wise medians of a frame, one per column
(embedding of `X.median()`). -/
def colMedians (df : DataFrame) : List Cell :=
  (List.range df.cols.length).map (fun j => medianQ (presentVals (colValsAt df j)))

/-- Embedding of `X.fillna(X.median())`: each missing cell is replaced by
its column's median of present values; a column with no present value has
a NaN median, and filling with NaN leaves the cell missing. -/
def fillnaMedian (df : DataFrame) : DataFrame :=
  let meds := colMedians df
  { cols := df.cols,
    rows := df.rows.map (fun r =>
      (List.range df.cols.length).map (fun j =>
        match r.getD j none with
        | some v => some v
        | none => meds.getD j none)) }

/-- The fixed feature list of `get_survival_data`. -/
def feature_cols : List String :=
  ["age_years", "male", "ascites", "hepato", "spiders", "edema",
   "bili", "chol", "albumin", "copper", "alk_phos", "sgot",
   "trig", "platelet", "protime", "stage", "drug_treatment"]

/-- Embedding of `get_survival_data`: `T = df[futime].values`,
`E = df[death_event].values`, `X = df[feature_cols].copy()` then
`X = X.fillna(X.median())`.  The final component is the frame the caller
passed, as it stands after the call: the source copies before imputing and
rebinds `X`, so the input frame is handed back untouched. -/
def get_survival_data (df : DataFrame) :
    Except String (List Cell × List Cell × DataFrame × DataFrame) :=
  match getColE df "futime" with
  | Except.error e => Except.error e
  | Except.ok T =>
    match getColE df "death_event" with
    | Except.error e => Except.error e
    | Except.ok E =>
      match selectCols df feature_cols with
      | Except.error e => Except.error e
      | Except.ok sub => Except.ok (T, E, fillnaMedian sub, df)

/-- Sum of the present values of a column (pandas `Series.sum` skips
NaN). -/
def sumPresent (l : List Cell) : ℚ := (presentVals l).sum

/-- Number of cells equal to a given present value
(embedding of `(series == v).sum()`). -/
def countEq (l : List Cell) (v : ℚ) : ℕ :=
  (l.filter (fun c => c == some v)).length

/-- Least present value of a column (pandas `Series.min`, NaN when
empty). -/
def minPresent (l : List Cell) : Cell :=
  match sortQ (presentVals l) with
  | [] => none
  | x :: _ => some x

/-- Greatest present value of a column (pandas `Series.max`, NaN when
empty). -/
def maxPresent (l : List Cell) : Cell :=
  match (sortQ (presentVals l)).reverse with
  | [] => none
  | x :: _ => some x

/-- Embedding of `print_dataset_summary`: reads patient count, death sum,
status counts, median follow-up, and the age range off the frame and
returns the printed figures together with the frame as it stands after the
call — every access is a read, so the frame is handed back untouched. -/
def print_dataset_summary (df : DataFrame) :
    Except String (List Cell × DataFrame) :=
  match getColE df "death_event" with
  | Except.error e => Except.error e
  | Except.ok de =>
    match getColE df "status" with
    | Except.error e => Except.error e
    | Except.ok st =>
      match getColE df "futime" with
      | Except.error e => Except.error e
      | Except.ok ft =>
        match getColE df "age_years" with
        | Except.error e => Except.error e
        | Except.ok ay =>
          Except.ok ([some (df.rows.length : ℚ),
                      some (sumPresent de),
                      some ((countEq st 1 : ℕ) : ℚ),
                      some ((countEq st 0 : ℕ) : ℚ),
                      medianQ (presentVals ft),
                      minPresent ay,
                      maxPresent ay], df)

/-- Embedding of `get_feature_descriptions`: a fixed literal mapping, no
frame in sight. -/
def get_feature_descriptions : List (String × String) :=
  [("futime", "Follow-up time in days (survival outcome)"),
   ("death_event", "Death indicator (1=died, 0=alive/transplant)"),
   ("age_years", "Patient age in years"),
   ("male", "Male gender (1=male, 0=female)"),
   ("ascites", "Ascites present (fluid in abdomen)"),
   ("hepato", "Hepatomegaly present (enlarged liver)"),
   ("spiders", "Spider angiomata present (vascular lesions)"),
   ("edema", "Edema severity (0=none, 0.5=moderate, 1=severe)"),
   ("bili", "Serum bilirubin mg/dl (liver function)"),
   ("chol", "Serum cholesterol mg/dl"),
   ("albumin", "Serum albumin gm/dl (liver synthetic function)"),
   ("copper", "24-hour urine copper ug/day"),
   ("alk_phos", "Alkaline phosphatase U/liter (bile duct function)"),
   ("sgot", "SGOT/AST U/ml (liver enzyme)"),
   ("trig", "Triglycerides mg/dl"),
   ("platelet", "Platelet count per cubic ml/1000"),
   ("protime", "Prothrombin time seconds (clotting function)"),
   ("stage", "Histologic disease stage (1-4)"),
   ("drug_treatment", "D-penicillamine treatment (1=yes, 0=placebo)")]

/-! ## Embedding of `load_schema_from_file` (C8) -/

/-- Split a text on the `;` statement terminator, keeping every (possibly
empty) segment, as the Python `str.split` call does. -/
def splitOnSemi : List Char → List (List Char)
  | [] => [[]]
  | c :: cs =>
      let r := splitOnSemi cs
      if c = ';' then [] :: r
      else
        match r with
        | [] => [[c]]
        | h :: t => (c :: h) :: t

/-- Strip leading and trailing whitespace from a segment
(`str.strip`). -/
def stripWs (l : List Char) : List Char :=
  ((l.dropWhile Char.isWhitespace).reverse.dropWhile Char.isWhitespace).reverse

/-- The statements `load_schema_from_file` extracts from the schema text:
split on the `;` terminator, strip whitespace, keep the non-empty
segments. -/
def schemaStatements (text : List Char) : List (List Char) :=
  ((splitOnSemi text).map stripWs).filter (fun s => s ≠ [])

/-- The cursor log of `load_schema_from_file`: `cursor.execute` runs on
each extracted statement in turn, so the executed list is the fold of the
statements over the (initially empty) log. -/
def load_schema_from_file (text : List Char) : List (List Char) :=
  (schemaStatements text).foldl (fun log stmt => log ++ [stmt]) []

/-! ## Embedding of the database loader `main` (C7, C10) -/

/-- The exception classes distinguished by the `except` clauses of `main`:
`FileNotFoundError`, `psycopg2.Error`, and any other `Exception`.  Each
carries its message payload. -/
inductive Exc where
  | fileNotFound (msg : String)
  | dbError (msg : String)
  | other (msg : String)
  deriving Repr, DecidableEq

/-- The distinguishing prefix `main` prints for a caught exception class:
`except FileNotFoundError` prints `Error: File not found - ...`,
`except psycopg2.Error` prints `Database error: ...`, and
`except Exception` prints `Unexpected error: ...`. -/
def handlerPrefix : Exc → String
  | Exc.fileNotFound _ => "Error: File not found - "
  | Exc.dbError _ => "Database error: "
  | Exc.other _ => "Unexpected error: "

/-- Outcomes the environment supplies for the steps of the `try` body of
`main`, in their source order: read the data file, connect to the
database, open a cursor, load the schema, insert the data, commit, and
run the verification queries.  Each step either succeeds or raises some
exception. -/
structure Env where
  readResult : Except Exc Unit
  connectResult : Except Exc Unit
  cursorResult : Except Exc Unit
  schemaResult : Except Exc Unit
  insertResult : Except Exc Unit
  commitResult : Except Exc Unit
  verifyResult : Except Exc Unit

/-- What a run of `main` did: which exception was caught (if any), the
distinguishing message prefix printed for it, whether an exception escaped
`main`, which of `conn`/`cursor` were ever bound, and which were closed by
the `finally` block. -/
structure RunOutcome where
  caught : Option Exc
  msgPrefix : Option String
  propagated : Bool
  connBound : Bool
  cursorBound : Bool
  connClosed : Bool
  cursorClosed : Bool
  deriving Repr, DecidableEq

/-- State of the `try` body after it stops: either it completed, or it
stopped at an exception, with the resource-binding flags at that point. -/
def tryBody (env : Env) : Option Exc × Bool × Bool :=
  match env.readResult with
  | Except.error e => (some e, false, false)
  | Except.ok _ =>
    match env.connectResult with
    | Except.error e => (some e, false, false)
    | Except.ok _ =>
      match env.cursorResult with
      | Except.error e => (some e, true, false)
      | Except.ok _ =>
        match env.schemaResult with
        | Except.error e => (some e, true, true)
        | Except.ok _ =>
          match env.insertResult with
          | Except.error e => (some e, true, true)
          | Except.ok _ =>
            match env.commitResult with
            | Except.error e => (some e, true, true)
            | Except.ok _ =>
              match env.verifyResult with
              | Except.error e => (some e, true, true)
              | Except.ok _ => (none, true, true)

/-- Embedding of `main`: run the `try` body, dispatch any exception to the
first matching `except` clause (the three clauses together cover every
exception, so nothing re-raises), then run the `finally` block, which
closes `cursor` and `conn` exactly when the corresponding name was bound
(`if name in locals()`). -/
def mainRun (env : Env) : RunOutcome :=
  match tryBody env with
  | (none, conn, cur) =>
      { caught := none, msgPrefix := none, propagated := false,
        connBound := conn, cursorBound := cur,
        connClosed := conn, cursorClosed := cur }
  | (some e, conn, cur) =>
      { caught := some e, msgPrefix := some (handlerPrefix e),
        propagated := false,
        connBound := conn, cursorBound := cur,
        connClosed := conn, cursorClosed := cur }

/-! ## Decimal numerals and the CSV round trip (C3)

The converter reads whitespace-separated decimal tokens (`.` being the
missing-value sentinel), holds them in memory, and writes them back as CSV
cells; `load_pbc_data` reads such a CSV.  Numbers are modelled exactly as
decimal numerals: a mantissa and a count of fractional digits. -/

/-- A decimal numeral `m / 10^e`, as read from a data token. -/
structure Dec where
  m : ℤ
  e : ℕ
  deriving Repr, DecidableEq

/-- Base-10 digits of `n`, least significant first, with explicit fuel so
that the definition is structural (`[]` for `n = 0`). -/
def natDigitsRevFuel : ℕ → ℕ → List ℕ
  | 0, _ => []
  | _ + 1, 0 => []
  | fuel + 1, n + 1 => ((n + 1) % 10) :: natDigitsRevFuel fuel ((n + 1) / 10)

/-- Base-10 digits of `n`, least significant first (`n` itself is enough
fuel). -/
def natDigitsRev (n : ℕ) : List ℕ := natDigitsRevFuel n n

/-- Value of a least-significant-first digit list. -/
def digitsRevToNat (l : List ℕ) : ℕ := l.foldr (fun d acc => acc * 10 + d) 0

/-- Value of a most-significant-first digit list. -/
def valMSF (l : List ℕ) : ℕ := l.foldl (fun acc d => acc * 10 + d) 0

/-- Base-10 digits of `n`, most significant first; `[0]` for zero, as a
decimal printer writes it. -/
def digitsM (n : ℕ) : List ℕ :=
  if n = 0 then [0] else (natDigitsRev n).reverse

/-- Character of one digit. -/
def digitChar (d : ℕ) : Char := Char.ofNat (48 + d)

/-- Digit value of one character, `none` off `0`–`9`. -/
def charToDigit (c : Char) : Option ℕ :=
  if 48 ≤ c.toNat ∧ c.toNat ≤ 57 then some (c.toNat - 48) else none

/-- Digit characters of `n`, most significant first. -/
def natChars (n : ℕ) : List Char := (digitsM n).map digitChar

/-- Digits of `n` left-padded with zeros to at least `e + 1` digits, so a
printer can split off `e` fractional digits and keep a non-empty integer
part. -/
def paddedDigits (n e : ℕ) : List ℕ :=
  List.replicate (e + 1 - (digitsM n).length) 0 ++ digitsM n

/-- Unsigned body of the decimal print of `⟨m, e⟩`: the digits of
`m.natAbs`, with a point before the last `e` digits when `e > 0`. -/
def printBody (na e : ℕ) : List Char :=
  if e = 0 then natChars na
  else
    let ds := paddedDigits na e
    ((ds.take (ds.length - e)).map digitChar) ++
      '.' :: ((ds.drop (ds.length - e)).map digitChar)

/-- Decimal print of a numeral, as the tabular writer emits it. -/
def printDec (d : Dec) : List Char :=
  if d.m < 0 then '-' :: printBody d.m.natAbs d.e else printBody d.m.natAbs d.e

/-- Split a token at its first `.`: the part before it, and the part after
it when one exists. -/
def splitAtDot : List Char → List Char × Option (List Char)
  | [] => ([], none)
  | c :: cs =>
    if c = '.' then ([], some cs)
    else
      let p := splitAtDot cs
      (c :: p.1, p.2)

/-- Parse a most-significant-first digit string. -/
def parseDigitsVal (cs : List Char) : Option ℕ :=
  (cs.mapM charToDigit).map valMSF

/-- Parse a dot-free unsigned token: a non-empty digit string. -/
def parseNoDot (ds : List Char) : Option Dec :=
  if ds = [] then none
  else (parseDigitsVal ds).map (fun n => ⟨(n : ℤ), 0⟩)

/-- Parse an unsigned token split at its point: non-empty digit strings
on both sides. -/
def parseWithDot (ds fs : List Char) : Option Dec :=
  if ds = [] ∨ fs = [] then none
  else (parseDigitsVal (ds ++ fs)).map (fun n => ⟨(n : ℤ), fs.length⟩)

/-- Parse an unsigned decimal token: digits, optionally split by one
point. -/
def parseUnsigned (cs : List Char) : Option Dec :=
  let p := splitAtDot cs
  match p.2 with
  | none => parseNoDot p.1
  | some fs => parseWithDot p.1 fs

/-- Parse a decimal token, with an optional leading minus sign: the
number reading the tabular parser applies to a non-sentinel field. -/
def parseDec (cs : List Char) : Option Dec :=
  match cs with
  | [] => none
  | c :: rest =>
      if c = '-' then (parseUnsigned rest).map (fun d => ⟨-d.m, d.e⟩)
      else parseUnsigned (c :: rest)

/-- A PatientRecord cell as read from the text file: `none` is a missing
value. -/
abbrev CellD : Type := Option Dec

/-- Reading one whitespace-separated token with `na_values` set to the
sentinel: `.` becomes a missing value, anything else must parse as a
number. -/
def parseToken (s : String) : Option CellD :=
  if s = "." then some none
  else (parseDec s.data).map (fun d => some d)

/-- Apply a fallible reader to every element, failing as soon as one
element fails. -/
def mapMOpt (f : α → Option β) : List α → Option (List β)
  | [] => some []
  | a :: as =>
      match f a, mapMOpt f as with
      | some b, some bs => some (b :: bs)
      | _, _ => none

/-- Reading one valid 20-field line of `pbc.dat.txt` into a
PatientRecord. -/
def parseRawRow (tokens : List String) : Option (List CellD) :=
  if tokens.length = 20 then mapMOpt parseToken tokens else none

/-- Writing one CSV cell (`to_csv`): a missing value becomes the empty
field, a number its decimal print. -/
def writeCSVCell (c : CellD) : String :=
  match c with
  | none => ""
  | some d => String.mk (printDec d)

/-- Writing one PatientRecord as a CSV row. -/
def writeCSVRow (r : List CellD) : List String := r.map writeCSVCell

/-- Reading one CSV cell back (`read_csv`): an empty field is missing,
anything else must parse as a number. -/
def readCSVCell (s : String) : Option CellD :=
  if s = "" then some none
  else (parseDec s.data).map (fun d => some d)

/-- Reading one 20-cell CSV row back into a PatientRecord. -/
def readCSVRow (cells : List String) : Option (List CellD) :=
  if cells.length = 20 then mapMOpt readCSVCell cells else none

/-! ## Auxiliary views and concrete inputs used by the theorems -/

/-- The cell at row `i`, column index `j` of a frame (`none` when the row
does not exist). -/
def cellIdx (df : DataFrame) (i j : ℕ) : Option Cell :=
  (df.rows[i]?).map (fun r => r.getD j none)

/-- The class of an exception, forgetting its payload: the three `except`
clauses of `main` distinguish exactly these. -/
def excClass : Exc → ℕ
  | Exc.fileNotFound _ => 0
  | Exc.dbError _ => 1
  | Exc.other _ => 2

/-- A raw frame with one missing value (the `chol` cell of its single
row), as `read_pbc_data` would produce it from a line with a `.` field. -/
def dfC1 : DataFrame :=
  { cols := pbcColumns,
    rows := [[some 1, some 400, some 2, some 1, some 21464, some 1, some 1,
              some 1, some 1, some 1, some 14.5, none, some 2.60, some 156,
              some 1718, some 137.95, some 172, some 190, some 12.2, some 4]] }

/-- The raw row of the spec scenario:
`1 400 2 1 21464 1 1 1 1 1.0 14.5 261 2.60 156 1718 137.95 172 190 12.2 4`. -/
def rowC2 : List Cell :=
  [some 1, some 400, some 2, some 1, some 21464, some 1, some 1, some 1,
   some 1, some 1.0, some 14.5, some 261, some 2.60, some 156, some 1718,
   some 137.95, some 172, some 190, some 12.2, some 4]

/-- A raw frame holding only the spec scenario row. -/
def dfC2 : DataFrame := { cols := pbcColumns, rows := [rowC2] }

/-- An ML-ready frame with four rows whose third row is missing every
feature value, so each feature column has three present values; its `chol`
column reads `[1, 2, missing, 4]`, the spec's imputation example. -/
def dfML : DataFrame :=
  { cols := mlColumns,
    rows :=
      [[some 1, some 400, some 2, some 1, some 21464, some 1, some 0,
        some 1, some 1, some 1, some 3, some 1, some 3, some 100, some 1000,
        some 100, some 100, some 200, some 10, some 3, some 58, some 1,
        some 0, some 1, some 1],
       [some 2, some 4500, some 0, some 2, some 20617, some 1, some 0,
        some 1, some 1, some 0, some 1, some 2, some 4, some 50, some 7000,
        some 110, some 80, some 220, some 10, some 3, some 56, some 0,
        some 0, some 1, some 0],
       [some 3, some 1012, some 2, some 1, some 25594, some 0, none,
        none, none, none, none, none, none, none, none,
        none, none, none, none, none, none, some 1,
        some 1, some 0, none],
       [some 4, some 1925, some 2, some 1, some 19994, some 1, some 0,
        some 0, some 0, some 1, some 2, some 4, some 2, some 60, some 5000,
        some 90, some 90, some 180, some 12, some 4, some 54, some 1,
        some 0, some 1, some 1]] }

/-- The frame `dfML[feature_cols]` selects (the copy
`get_survival_data` imputes on). -/
def SML : DataFrame :=
  (selectCols dfML feature_cols).toOption.getD { cols := [], rows := [] }

/-- The duration vector `get_survival_data` reads off `dfML`. -/
def TML : List Cell := (getColE dfML ("futime")).toOption.getD []

/-- The event vector `get_survival_data` reads off `dfML`. -/
def EML : List Cell := (getColE dfML ("death_event")).toOption.getD []

/-- The imputed feature matrix `get_survival_data` returns for `dfML`. -/
def XML : DataFrame := fillnaMedian SML

/-- The printed figures `print_dataset_summary` returns for `dfML`. -/
def outML : List Cell :=
  (print_dataset_summary dfML).toOption.map Prod.fst |>.getD []

/-- An ML-ready frame lacking the documented feature column `chol`
(24 columns), with one complete row. -/
def dfNoChol : DataFrame :=
  { cols := (mlColumns.filter (fun c => c ≠ "chol")),
    rows := [[some 1, some 400, some 2, some 1, some 21464, some 1, some 0,
              some 1, some 1, some 1, some 3, some 3, some 100, some 1000,
              some 100, some 100, some 200, some 10, some 3, some 58, some 1,
              some 0, some 1, some 1]] }

/-- An environment in which every step of `main` succeeds. -/
def envOk : Env :=
  { readResult := Except.ok (), connectResult := Except.ok (),
    cursorResult := Except.ok (), schemaResult := Except.ok (),
    insertResult := Except.ok (), commitResult := Except.ok (),
    verifyResult := Except.ok (), }

/-- An environment in which the insert step raises a generic exception
(as the actual `insert_pbc_data` does). -/
def envInsertBoom : Env :=
  { envOk with insertResult := Except.error (Exc.other ("boom")) }

/-- An environment in which the data file is missing, so the very first
step of `main` raises `FileNotFoundError`. -/
def envNoFile : Env :=
  { envOk with readResult := Except.error (Exc.fileNotFound ("pbc.dat.txt")) }

/-- A schema text whose second logical statement contains the `;`
terminator inside a nested body. -/
def sqlNested : String :=
  "CREATE TABLE pbc_patients (id INTEGER PRIMARY KEY);\nCREATE RULE wipe AS ON DELETE TO pbc_patients DO (UPDATE pbc_patients SET id = 0; DELETE FROM pbc_patients)"

/-- A valid 20-field input line with a `.` sentinel in its `chol`
field. -/
def tokensC3 : List String :=
  ["1", "400", "2", "1", "21464", "1", "1", "1", "1", "1.0",
   "14.5", "261", ".", "156", "1718", "137.95", "172", "190", "12.2", "4"]

/-- The PatientRecord read from `tokensC3`. -/
def recordC3 : List CellD :=
  [some ⟨1, 0⟩, some ⟨400, 0⟩, some ⟨2, 0⟩, some ⟨1, 0⟩, some ⟨21464, 0⟩,
   some ⟨1, 0⟩, some ⟨1, 0⟩, some ⟨1, 0⟩, some ⟨1, 0⟩, some ⟨10, 1⟩,
   some ⟨145, 1⟩, some ⟨261, 0⟩, none, some ⟨156, 0⟩, some ⟨1718, 0⟩,
   some ⟨13795, 2⟩, some ⟨172, 0⟩, some ⟨190, 0⟩, some ⟨122, 1⟩, some ⟨4, 0⟩]

/-! ## Shared helper lemmas -/

/-- Folding list append over a log collects exactly the folded list. -/
theorem foldl_snoc_eq (l acc : List (List Char)) :
    l.foldl (fun log stmt => log ++ [stmt]) acc = acc ++ l := by
  induction l generalizing acc with
  | nil => simp
  | cons x xs ih => simp [ih, List.append_assoc]

/-! ## Claim theorems -/

/-- C1 (code bug): `insert_pbc_data` never writes its row tuples at all —
the source line `df_clean = df.fillna(None)` passes `None` as the fill
value, which pandas rejects with
`ValueError: Must specify a fill value or method`, so the call raises on
every frame (a frame with a missing `chol` value shown concretely, and
every frame generally) instead of mapping missing values to `None`
tuples. -/
theorem insert_pbc_data_always_fails :
    insert_pbc_data dfC1 =
      Except.error ("ValueError: Must specify a fill value or method") ∧
    ∀ df : DataFrame, insert_pbc_data df =
      Except.error ("ValueError: Must specify a fill value or method") :=
  ⟨rfl, fun _ => rfl⟩

/-- C6: upserting two records with the same identifier into the table
leaves the table extended by exactly one row for that identifier, that
row being the second write in full: the key is kept and every non-key
column overwritten with the second record's values. -/
theorem upsert_same_id_twice (t : List (List Cell)) (r1 r2 : List Cell)
    (hid : rowKey r1 = rowKey r2)
    (hfresh : ∀ x ∈ t, rowKey x ≠ rowKey r2)
    (hne : r2 ≠ []) :
    upsertAll t [r1, r2] = t ++ [r2] ∧
    (upsertAll t [r1, r2]).filter (fun x => rowKey x == rowKey r2) = [r2] := by
  obtain ⟨c, cs, rfl⟩ : ∃ c cs, r2 = c :: cs := by
    cases r2 with
    | nil => exact absurd rfl hne
    | cons c cs => exact ⟨c, cs, rfl⟩
  have step1 : upsert t r1 = t ++ [r1] := by
    have h1 : t.any (fun x => rowKey x == rowKey r1) = false := by
      rw [List.any_eq_false]
      intro x hx
      simp only [beq_iff_eq, hid]
      exact hfresh x hx
    simp [upsert, h1]
  have hkey : rowKey (c :: cs) = c := rfl
  have hmain : upsertAll t [r1, c :: cs] = t ++ [c :: cs] := by
    show upsert (upsert t r1) (c :: cs) = t ++ [c :: cs]
    rw [step1]
    have h2 : (t ++ [r1]).any (fun x => rowKey x == rowKey (c :: cs)) = true := by
      simp [List.any_append, hid]
    simp only [upsert, h2, if_true, List.map_append, List.map_cons, List.map_nil]
    have h3 : t.map (fun x =>
        if rowKey x == rowKey (c :: cs)
        then rowKey x :: (c :: cs).drop 1 else x) = t := by
      have := List.map_congr_left (l := t)
        (f := fun x => if rowKey x == rowKey (c :: cs)
                       then rowKey x :: (c :: cs).drop 1 else x)
        (g := fun x => x)
        (fun x hx => by simp only [beq_iff_eq, if_neg (hfresh x hx)])
      rw [this, List.map_id']
    rw [h3]
    simp [hid, hkey]
  refine ⟨hmain, ?_⟩
  rw [hmain, List.filter_append]
  have h4 : t.filter (fun x => rowKey x == rowKey (c :: cs)) = [] := by
    rw [List.filter_eq_nil_iff]
    intro x hx
    simp only [beq_iff_eq]
    exact hfresh x hx
  rw [h4]
  simp

/-- C6 witness: two concrete single-key rows with identifier 7, the
second write winning in full, on an initially empty table. -/
theorem upsert_same_id_twice_witness :
    upsertAll [] [[some 7, some 1, some 2], [some 7, some 9, some 8]] =
      [] ++ [[some 7, some 9, some 8]] ∧
    (upsertAll [] [[some 7, some 1, some 2], [some 7, some 9, some 8]]).filter
      (fun x => rowKey x == rowKey [some 7, some 9, some 8]) =
      [[some 7, some 9, some 8]] :=
  upsert_same_id_twice [] [some 7, some 1, some 2] [some 7, some 9, some 8]
    rfl (by intro x hx; cases hx) (by decide)

/-- C7: every run of the database loader's `main` dispatches a raised
exception to the matching `except` clause (so nothing propagates out of
`main`), the message prefix printed for it is the class's own and the
three class prefixes are pairwise distinct, and the `finally` block closes
the cursor and the connection exactly when they were bound — in
particular on every exit path on which they exist. -/
theorem main_catches_and_releases (env : Env) :
    (mainRun env).propagated = false ∧
    (mainRun env).connClosed = (mainRun env).connBound ∧
    (mainRun env).cursorClosed = (mainRun env).cursorBound ∧
    (∀ e : Exc, (mainRun env).caught = some e →
      (mainRun env).msgPrefix = some (handlerPrefix e)) ∧
    (∀ e1 e2 : Exc, handlerPrefix e1 = handlerPrefix e2 →
      excClass e1 = excClass e2) := by
  refine ⟨?_, ?_, ?_, ?_, ?_⟩
  case _ =>
    rcases htb : tryBody env with ⟨o, conn, cur⟩
    cases o <;> simp [mainRun, htb]
  case _ =>
    rcases htb : tryBody env with ⟨o, conn, cur⟩
    cases o <;> simp [mainRun, htb]
  case _ =>
    rcases htb : tryBody env with ⟨o, conn, cur⟩
    cases o <;> simp [mainRun, htb]
  case _ =>
    intro e he
    rcases htb : tryBody env with ⟨o, conn, cur⟩
    cases o with
    | none => rw [mainRun, htb] at he ⊢; cases he
    | some e0 =>
        rw [mainRun, htb] at he ⊢
        cases he
        rfl
  case _ =>
    intro e1 e2 h
    cases e1 <;> cases e2 <;> simp_all [handlerPrefix, excClass]

/-- C7 witness: in a run whose insert step raises a generic exception
(the class the actual `insert_pbc_data` raises), nothing propagates, the
bound cursor and connection are both closed, and the printed prefix is the
generic clause's. -/
theorem main_catches_and_releases_witness :
    (mainRun envInsertBoom).propagated = false ∧
    (mainRun envInsertBoom).connClosed = (mainRun envInsertBoom).connBound ∧
    (mainRun envInsertBoom).msgPrefix = some ("Unexpected error: ") :=
  ⟨(main_catches_and_releases envInsertBoom).1,
   (main_catches_and_releases envInsertBoom).2.1,
   (main_catches_and_releases envInsertBoom).2.2.2.1
     (Exc.other ("boom")) (by decide)⟩

/-- C8: `load_schema_from_file` executes, in source order, exactly the
segments of the schema text that are non-empty after splitting on the `;`
terminator and stripping whitespace; a nested statement containing the
terminator is not supported — concretely, a schema whose second logical
statement holds a `;` inside a rule body is executed as three
fragments. -/
theorem load_schema_splits_on_terminator :
    (∀ text : List Char, load_schema_from_file text =
      ((splitOnSemi text).map stripWs).filter (fun s => s ≠ [])) ∧
    load_schema_from_file sqlNested.data =
      ["CREATE TABLE pbc_patients (id INTEGER PRIMARY KEY)".data,
       "CREATE RULE wipe AS ON DELETE TO pbc_patients DO (UPDATE pbc_patients SET id = 0".data,
       "DELETE FROM pbc_patients)".data] := by
  constructor
  · intro text
    rw [load_schema_from_file, foldl_snoc_eq, List.nil_append, schemaStatements]
  · decide

/-- C2: on every 20-field input row, the converter's derived columns
satisfy `age_years = age / 365.25`, `death_event = 1` exactly when
`status == 2` and `0` otherwise, `male = 1` exactly when `sex == 0`,
`female = 1` exactly when `sex == 1`, and `drug_treatment = 1` exactly
when `drug == 1`, each read off the named source column of the raw
frame. -/
theorem convertML_derived_columns (df : DataFrame) (hcols : df.cols = pbcColumns)
    (i : ℕ) (r : List Cell) (hr : df.rows[i]? = some r) (hr20 : r.length = 20) :
    getCell (convertML df) ("age_years") i =
      (getCell df ("age") i).map (fun a => a.map (fun v => v / (365.25 : ℚ))) ∧
    getCell (convertML df) ("death_event") i =
      (getCell df ("status") i).map (fun s => some (if s = some 2 then 1 else 0)) ∧
    getCell (convertML df) ("male") i =
      (getCell df ("sex") i).map (fun s => some (if s = some 0 then 1 else 0)) ∧
    getCell (convertML df) ("female") i =
      (getCell df ("sex") i).map (fun s => some (if s = some 1 then 1 else 0)) ∧
    getCell (convertML df) ("drug_treatment") i =
      (getCell df ("drug") i).map (fun d => some (if d = some 1 then 1 else 0)) := by
  have hml : (convertML df).rows[i]? = some (deriveRow r) := by
    rw [convertML]
    show (df.rows.map deriveRow)[i]? = some (deriveRow r)
    rw [List.getElem?_map, hr]
    rfl
  have hlen : r.length ≤ 20 := le_of_eq hr20
  have happ : ∀ k : ℕ, (deriveRow r).getD (20 + k) none =
      ([(r.getD 4 none).map (fun a => a / (365.25 : ℚ)),
        some (if r.getD 2 none = some 2 then 1 else 0),
        some (if r.getD 5 none = some 0 then 1 else 0),
        some (if r.getD 5 none = some 1 then 1 else 0),
        some (if r.getD 3 none = some 1 then 1 else 0)] : List Cell).getD k none := by
    intro k
    rw [deriveRow, List.getD_append_right _ _ _ _ (by omega), hr20]
    congr 1
    omega
  have hsrc : ∀ (c : String) (j : ℕ),
      pbcColumns.findIdx? (fun n => n == c) = some j →
      getCell df c i = some (r.getD j none) := by
    intro c j hj
    rw [getCell, colIdx, hcols, hj, hr]
    rfl
  have hdst : ∀ (c : String) (j : ℕ),
      mlColumns.findIdx? (fun n => n == c) = some j →
      getCell (convertML df) c i = some ((deriveRow r).getD j none) := by
    intro c j hj
    rw [getCell]
    have hcj : colIdx (convertML df) c = some j := hj
    rw [hcj, hml]
    rfl
  refine ⟨?_, ?_, ?_, ?_, ?_⟩
  · rw [hdst ("age_years") 20 (by decide), hsrc ("age") 4 (by decide),
      show (20 : ℕ) = 20 + 0 from rfl, happ 0]
    rfl
  · rw [hdst ("death_event") 21 (by decide), hsrc ("status") 2 (by decide),
      show (21 : ℕ) = 20 + 1 from rfl, happ 1]
    rfl
  · rw [hdst ("male") 22 (by decide), hsrc ("sex") 5 (by decide),
      show (22 : ℕ) = 20 + 2 from rfl, happ 2]
    rfl
  · rw [hdst ("female") 23 (by decide), hsrc ("sex") 5 (by decide),
      show (23 : ℕ) = 20 + 3 from rfl, happ 3]
    rfl
  · rw [hdst ("drug_treatment") 24 (by decide), hsrc ("drug") 3 (by decide),
      show (24 : ℕ) = 20 + 4 from rfl, happ 4]
    rfl

/-- C2 witness: the spec scenario row
`1 400 2 1 21464 1 1 1 1 1.0 14.5 261 2.60 156 1718 137.95 172 190 12.2 4`
derives `death_event = 1`, `male = 0`, `female = 1`, and an `age_years` of
`21464 / 365.25`, which is within `0.01` of `58.77`. -/
theorem convertML_derived_columns_witness :
    getCell (convertML dfC2) ("death_event") 0 = some (some 1) ∧
    getCell (convertML dfC2) ("male") 0 = some (some 0) ∧
    getCell (convertML dfC2) ("female") 0 = some (some 1) ∧
    getCell (convertML dfC2) ("age_years") 0 = some (some ((21464 : ℚ) / 365.25)) ∧
    |(21464 : ℚ) / 365.25 - 58.77| < 1 / 100 := by
  have h := convertML_derived_columns dfC2 rfl 0 rowC2 rfl (by decide)
  obtain ⟨h1, h2, h3, h4, _⟩ := h
  refine ⟨?_, ?_, ?_, ?_, by rw [abs_sub_lt_iff]; constructor <;> norm_num⟩
  · rw [h2]; rfl
  · rw [h3]; rfl
  · rw [h4]; rfl
  · rw [h1]; rfl

/-- C5 (amended): when `get_survival_data` succeeds on a table with N
rows, the duration vector, the event vector and the feature matrix all
have length/row-count N, and the matrix columns are exactly the
documented fixed feature list — the success already requires every
documented column to be present, because a missing one raises a KeyError
instead of being dropped. -/
theorem get_survival_data_shapes (df : DataFrame) (T E : List Cell)
    (X d' : DataFrame)
    (h : get_survival_data df = Except.ok (T, E, X, d')) :
    T.length = df.rows.length ∧ E.length = df.rows.length ∧
    X.rows.length = df.rows.length ∧ X.cols = feature_cols := by
  rw [get_survival_data] at h
  cases h1 : getColE df ("futime") with
  | error e => rw [h1] at h; cases h
  | ok T0 =>
    rw [h1] at h
    cases h2 : getColE df ("death_event") with
    | error e => rw [h2] at h; cases h
    | ok E0 =>
      rw [h2] at h
      cases h3 : selectCols df feature_cols with
      | error e => rw [h3] at h; cases h
      | ok sub =>
        rw [h3] at h
        have hT : T0 = T ∧ E0 = E ∧ fillnaMedian sub = X ∧ df = d' := by
          cases h; exact ⟨rfl, rfl, rfl, rfl⟩
        obtain ⟨rfl, rfl, rfl, rfl⟩ := hT
        have hTlen : T0.length = df.rows.length := by
          rw [getColE] at h1
          cases h4 : colIdx df ("futime") with
          | none => rw [h4] at h1; cases h1
          | some j =>
            rw [h4] at h1
            cases h1
            simp [colValsAt]
        have hElen : E0.length = df.rows.length := by
          rw [getColE] at h2
          cases h5 : colIdx df ("death_event") with
          | none => rw [h5] at h2; cases h2
          | some j =>
            rw [h5] at h2
            cases h2
            simp [colValsAt]
        have hsub : sub.cols = feature_cols ∧ sub.rows.length = df.rows.length := by
          rw [selectCols] at h3
          by_cases hc : (feature_cols.all (fun n => df.cols.contains n)) = true
          · rw [if_pos hc] at h3
            cases h3
            exact ⟨rfl, by simp⟩
          · rw [if_neg hc] at h3; cases h3
        exact ⟨hTlen, hElen,
          by rw [fillnaMedian]; simpa using hsub.2,
          by rw [fillnaMedian]; exact hsub.1⟩

/-- C5 witness: on the concrete four-row ML frame the returned vectors
and matrix all have four rows and the matrix columns are the documented
list. -/
theorem get_survival_data_shapes_witness :
    TML.length = dfML.rows.length ∧ EML.length = dfML.rows.length ∧
    XML.rows.length = dfML.rows.length ∧ XML.cols = feature_cols :=
  get_survival_data_shapes dfML TML EML XML dfML rfl

/-- C5 counterexample: on a loaded table lacking the documented feature
column `chol`, `get_survival_data` does not return a feature matrix with
the remaining columns — it fails with a KeyError, so the claim's
drop-missing-columns reading is false on the code. -/
theorem get_survival_data_missing_column_fails :
    get_survival_data dfNoChol =
      Except.error ("KeyError: some requested columns are not in the frame") :=
  rfl

/-- C9: `get_survival_data` and `print_dataset_summary` are pure over the
loaded table: whenever either succeeds, the frame it hands back after the
call is exactly the frame passed in — the median imputation happens on a
copy, the summary only reads (and `get_feature_descriptions` is a fixed
literal that never touches a frame). -/
theorem survival_and_summary_pure :
    (∀ (df : DataFrame) (T E : List Cell) (X d' : DataFrame),
      get_survival_data df = Except.ok (T, E, X, d') → d' = df) ∧
    (∀ (df : DataFrame) (out : List Cell) (d' : DataFrame),
      print_dataset_summary df = Except.ok (out, d') → d' = df) := by
  constructor
  · intro df T E X d' h
    rw [get_survival_data] at h
    cases h1 : getColE df ("futime") with
    | error e => rw [h1] at h; cases h
    | ok T0 =>
      rw [h1] at h
      cases h2 : getColE df ("death_event") with
      | error e => rw [h2] at h; cases h
      | ok E0 =>
        rw [h2] at h
        cases h3 : selectCols df feature_cols with
        | error e => rw [h3] at h; cases h
        | ok sub => rw [h3] at h; cases h; rfl
  · intro df out d' h
    rw [print_dataset_summary] at h
    cases h1 : getColE df ("death_event") with
    | error e => rw [h1] at h; cases h
    | ok de =>
      rw [h1] at h
      cases h2 : getColE df ("status") with
      | error e => rw [h2] at h; cases h
      | ok st =>
        rw [h2] at h
        cases h3 : getColE df ("futime") with
        | error e => rw [h3] at h; cases h
        | ok ft =>
          rw [h3] at h
          cases h4 : getColE df ("age_years") with
          | error e => rw [h4] at h; cases h
          | ok ay => rw [h4] at h; cases h; rfl

/-- The cell of the imputed frame at a position: the original value when
present, the column's median of present values when missing. -/
theorem fillnaMedian_cellIdx (S : DataFrame) (i j : ℕ) (hj : j < S.cols.length) :
    cellIdx (fillnaMedian S) i j =
      (S.rows[i]?).map (fun r =>
        match r.getD j none with
        | some v => some v
        | none => medianQ (presentVals (colValsAt S j))) := by
  rw [cellIdx, fillnaMedian]
  show ((S.rows.map _)[i]?).map _ = _
  rw [List.getElem?_map, Option.map_map]
  cases hri : S.rows[i]? with
  | none => rfl
  | some r =>
    simp only [Option.map_some']
    congr 1
    show (List.map _ (List.range S.cols.length)).getD j none = _
    have hj2 : j < (List.map (fun j =>
        match r.getD j none with
        | some v => some v
        | none => (colMedians S).getD j none) (List.range S.cols.length)).length := by
      simpa using hj
    rw [List.getD_eq_getElem _ _ hj2, List.getElem_map, List.getElem_range]
    have hmed : (colMedians S).getD j none =
        medianQ (presentVals (colValsAt S j)) := by
      rw [colMedians]
      have hj3 : j < (List.map (fun j => medianQ (presentVals (colValsAt S j)))
          (List.range S.cols.length)).length := by simpa using hj
      rw [List.getD_eq_getElem _ _ hj3, List.getElem_map, List.getElem_range]
    rw [hmed]

/-- C4: in `get_survival_data`, every missing entry of a feature column of
the selected sub-frame is replaced by that column's median computed once
over the present values of the full table, and every present entry is
kept as it is — never a placeholder constant. -/
theorem get_survival_data_imputes_median (df : DataFrame) (T E : List Cell)
    (X d' S : DataFrame)
    (h : get_survival_data df = Except.ok (T, E, X, d'))
    (hS : selectCols df feature_cols = Except.ok S)
    (i j : ℕ) (hj : j < S.cols.length) :
    (cellIdx S i j = some none →
      cellIdx X i j = some (medianQ (presentVals (colValsAt S j)))) ∧
    (∀ v : ℚ, cellIdx S i j = some (some v) → cellIdx X i j = some (some v)) := by
  have hX : X = fillnaMedian S := by
    rw [get_survival_data] at h
    cases h1 : getColE df ("futime") with
    | error e => rw [h1] at h; cases h
    | ok T0 =>
      rw [h1] at h
      cases h2 : getColE df ("death_event") with
      | error e => rw [h2] at h; cases h
      | ok E0 =>
        rw [h2] at h
        rw [hS] at h
        cases h
        rfl
  subst hX
  have hcell := fillnaMedian_cellIdx S i j hj
  constructor
  · intro hmiss
    rw [cellIdx] at hmiss
    cases hri : S.rows[i]? with
    | none => rw [hri] at hmiss; cases hmiss
    | some r =>
      rw [hri] at hmiss
      have hrv : r.getD j none = none := by
        simp only [Option.map_some', Option.some.injEq] at hmiss
        exact hmiss
      rw [hcell, hri, Option.map_some', hrv]
  · intro v hv
    rw [cellIdx] at hv
    cases hri : S.rows[i]? with
    | none => rw [hri] at hv; cases hv
    | some r =>
      rw [hri] at hv
      have hrv : r.getD j none = some v := by
        simp only [Option.map_some', Option.some.injEq] at hv
        exact hv
      rw [hcell, hri, Option.map_some', hrv]

/-- C4 witness: in the concrete four-row ML frame whose selected `chol`
column reads `[1, 2, missing, 4]`, the missing entry is imputed as the
median 2 of the present values, and a present entry is left unchanged. -/
theorem get_survival_data_imputes_median_witness :
    cellIdx XML 2 7 = some (some 2) ∧ cellIdx XML 0 7 = some (some 1) := by
  have H := get_survival_data_imputes_median dfML TML EML XML dfML SML
    rfl rfl 2 7 (by decide)
  have H0 := get_survival_data_imputes_median dfML TML EML XML dfML SML
    rfl rfl 0 7 (by decide)
  constructor
  · have h1 := H.1 (by decide)
    rw [h1]
    decide
  · exact H0.2 1 (by decide)

/-- C10: when the data file is missing, the run stops before any database
resource is bound: `main` reports the file-not-found message, nothing
propagates, and the cleanup block performs no close operation at all. -/
theorem cleanup_skips_unbound (env : Env) (e : Exc)
    (h : env.readResult = Except.error e) :
    mainRun env =
      { caught := some e, msgPrefix := some (handlerPrefix e),
        propagated := false, connBound := false, cursorBound := false,
        connClosed := false, cursorClosed := false } := by
  rw [mainRun, tryBody, h]

/-- Reading the digits back gives the number, for any sufficient fuel. -/
theorem digitsRevToNat_fuel (fuel : ℕ) :
    ∀ n : ℕ, n ≤ fuel → digitsRevToNat (natDigitsRevFuel fuel n) = n := by
  induction fuel with
  | zero =>
      intro n hn
      interval_cases n
      rfl
  | succ fuel ih =>
      intro n hn
      cases n with
      | zero => rfl
      | succ k =>
          have hdiv : (k + 1) / 10 ≤ fuel := by omega
          show digitsRevToNat (((k + 1) % 10) :: natDigitsRevFuel fuel ((k + 1) / 10)) = k + 1
          show digitsRevToNat (natDigitsRevFuel fuel ((k + 1) / 10)) * 10 + (k + 1) % 10 = k + 1
          rw [ih _ hdiv]
          omega

/-- Every digit produced is below 10. -/
theorem natDigitsRevFuel_lt (fuel : ℕ) :
    ∀ n : ℕ, ∀ d ∈ natDigitsRevFuel fuel n, d < 10 := by
  induction fuel with
  | zero =>
      intro n d hd
      cases hd
  | succ fuel ih =>
      intro n d hd
      cases n with
      | zero => cases hd
      | succ k =>
          rcases List.mem_cons.mp hd with h | h
          · omega
          · exact ih _ _ h

/-- Value of the reversed digit list under the most-significant-first
fold. -/
theorem valMSF_reverse (l : List ℕ) : valMSF l.reverse = digitsRevToNat l := by
  rw [valMSF, List.foldl_reverse]
  rfl

/-- The printed digit list of `n` evaluates back to `n`. -/
theorem valMSF_digitsM (n : ℕ) : valMSF (digitsM n) = n := by
  rw [digitsM]
  by_cases h : n = 0
  · rw [if_pos h, h]; rfl
  · rw [if_neg h, natDigitsRev, valMSF_reverse]
    exact digitsRevToNat_fuel n n le_rfl

/-- Every digit of the printed digit list is below 10. -/
theorem digitsM_lt (n : ℕ) : ∀ d ∈ digitsM n, d < 10 := by
  intro d hd
  rw [digitsM] at hd
  by_cases h : n = 0
  · rw [if_pos h] at hd
    rcases List.mem_singleton.mp hd with rfl
    omega
  · rw [if_neg h] at hd
    exact natDigitsRevFuel_lt n n d (List.mem_reverse.mp hd)

/-- The printed digit list is never empty. -/
theorem digitsM_ne_nil (n : ℕ) : digitsM n ≠ [] := by
  rw [digitsM]
  by_cases h : n = 0
  · rw [if_pos h]; exact List.cons_ne_nil 0 []
  · rw [if_neg h]
    cases n with
    | zero => exact absurd rfl h
    | succ k =>
        rw [natDigitsRev]
        show (((k + 1) % 10) :: natDigitsRevFuel k ((k + 1) / 10)).reverse ≠ []
        simp

/-- The digit characters decode back to their digits. -/
theorem charToDigit_digitChar : ∀ d < 10, charToDigit (digitChar d) = some d := by
  decide

/-- A digit character is not the decimal point. -/
theorem digitChar_ne_dot : ∀ d < 10, digitChar d ≠ '.' := by
  decide

/-- A digit character is not the minus sign. -/
theorem digitChar_ne_dash : ∀ d < 10, digitChar d ≠ '-' := by
  decide

/-- Decoding the characters of a digit list recovers the list. -/
theorem mapM_charToDigit (ds : List ℕ) (h : ∀ d ∈ ds, d < 10) :
    (ds.map digitChar).mapM charToDigit = some ds := by
  induction ds with
  | nil => rfl
  | cons d ds ih =>
      rw [List.map_cons, List.mapM_cons,
        charToDigit_digitChar d (h d (List.mem_cons_self d ds)),
        ih (fun x hx => h x (List.mem_cons_of_mem d hx))]
      rfl

/-- Parsing the characters of a digit list yields its value. -/
theorem parseDigitsVal_map (ds : List ℕ) (h : ∀ d ∈ ds, d < 10) :
    parseDigitsVal (ds.map digitChar) = some (valMSF ds) := by
  rw [parseDigitsVal, mapM_charToDigit ds h]
  rfl

/-- A dot-free token splits into itself. -/
theorem splitAtDot_no_dot (cs : List Char) (h : ∀ c ∈ cs, c ≠ '.') :
    splitAtDot cs = (cs, none) := by
  induction cs with
  | nil => rfl
  | cons c cs ih =>
      rw [splitAtDot]
      rw [if_neg (h c (List.mem_cons_self c cs)),
        ih (fun x hx => h x (List.mem_cons_of_mem c hx))]

/-- A token with one marked dot splits at it. -/
theorem splitAtDot_append (a b : List Char) (h : ∀ c ∈ a, c ≠ '.') :
    splitAtDot (a ++ '.' :: b) = (a, some b) := by
  induction a with
  | nil =>
      show splitAtDot ('.' :: b) = ([], some b)
      rw [splitAtDot, if_pos rfl]
  | cons c cs ih =>
      show splitAtDot (c :: (cs ++ '.' :: b)) = (c :: cs, some b)
      rw [splitAtDot, if_neg (h c (List.mem_cons_self c cs)),
        ih (fun x hx => h x (List.mem_cons_of_mem c hx))]

/-- Leading zeros do not change the value of a digit list. -/
theorem valMSF_replicate_zero (k : ℕ) (ds : List ℕ) :
    valMSF (List.replicate k 0 ++ ds) = valMSF ds := by
  rw [valMSF, List.foldl_append]
  have h0 : (List.replicate k 0).foldl (fun acc d => acc * 10 + d) 0 = 0 := by
    induction k with
    | zero => rfl
    | succ k ih => rw [List.replicate_succ]; simpa using ih
  rw [h0]
  rfl

/-- The padded digit list still evaluates to the number. -/
theorem valMSF_paddedDigits (n e : ℕ) : valMSF (paddedDigits n e) = n := by
  rw [paddedDigits, valMSF_replicate_zero, valMSF_digitsM]

/-- Every entry of the padded digit list is below 10. -/
theorem paddedDigits_lt (n e : ℕ) : ∀ d ∈ paddedDigits n e, d < 10 := by
  intro d hd
  rw [paddedDigits] at hd
  rcases List.mem_append.mp hd with h | h
  · rcases List.eq_of_mem_replicate h with rfl
    omega
  · exact digitsM_lt n d h

/-- The padded digit list has at least `e + 1` digits. -/
theorem paddedDigits_length (n e : ℕ) : e + 1 ≤ (paddedDigits n e).length := by
  rw [paddedDigits, List.length_append, List.length_replicate]
  have := List.length_pos.mpr (digitsM_ne_nil n)
  omega

/-- Parsing the printed body of an unsigned numeral recovers mantissa and
fractional-digit count. -/
theorem parseUnsigned_printBody (na e : ℕ) :
    parseUnsigned (printBody na e) = some ⟨(na : ℤ), e⟩ := by
  by_cases he : e = 0
  · subst he
    have hnodot : ∀ c ∈ (digitsM na).map digitChar, c ≠ '.' := by
      intro c hc
      rcases List.mem_map.mp hc with ⟨d, hd, rfl⟩
      exact digitChar_ne_dot d (digitsM_lt na d hd)
    have hne : (digitsM na).map digitChar ≠ [] := by
      simp [digitsM_ne_nil na]
    rw [printBody, if_pos rfl, natChars]
    simp only [parseUnsigned, splitAtDot_no_dot _ hnodot]
    rw [parseNoDot, if_neg hne, parseDigitsVal_map _ (digitsM_lt na),
      valMSF_digitsM]
    rfl
  · have hlen := paddedDigits_length na e
    have hA : ∀ c ∈ ((paddedDigits na e).take
        ((paddedDigits na e).length - e)).map digitChar, c ≠ '.' := by
      intro c hc
      rcases List.mem_map.mp hc with ⟨d, hd, rfl⟩
      exact digitChar_ne_dot d (paddedDigits_lt na e d (List.take_subset _ _ hd))
    rw [printBody, if_neg he]
    simp only [parseUnsigned, splitAtDot_append _ _ hA]
    rw [parseWithDot]
    have hAne : ((paddedDigits na e).take
        ((paddedDigits na e).length - e)).map digitChar ≠ [] := by
      intro hcon
      have := congrArg List.length hcon
      simp only [List.length_map, List.length_take, List.length_nil] at this
      omega
    have hBne : ((paddedDigits na e).drop
        ((paddedDigits na e).length - e)).map digitChar ≠ [] := by
      intro hcon
      have := congrArg List.length hcon
      simp only [List.length_map, List.length_drop, List.length_nil] at this
      omega
    rw [if_neg (by push_neg; exact ⟨hAne, hBne⟩)]
    rw [← List.map_append, List.take_append_drop,
      parseDigitsVal_map _ (paddedDigits_lt na e), valMSF_paddedDigits]
    have hBlen : (((paddedDigits na e).drop
        ((paddedDigits na e).length - e)).map digitChar).length = e := by
      simp only [List.length_map, List.length_drop]
      omega
    rw [hBlen]
    rfl

/-- The printed body starts with a digit character. -/
theorem printBody_head (na e : ℕ) :
    ∃ d, d < 10 ∧ ∃ rest, printBody na e = digitChar d :: rest := by
  by_cases he : e = 0
  · subst he
    obtain ⟨d, ds, hds⟩ := List.exists_cons_of_ne_nil (digitsM_ne_nil na)
    refine ⟨d, digitsM_lt na d (by rw [hds]; exact List.mem_cons_self d ds), ?_⟩
    rw [printBody, if_pos rfl, natChars, hds, List.map_cons]
    exact ⟨ds.map digitChar, rfl⟩
  · have hlen := paddedDigits_length na e
    obtain ⟨p, ps, hps⟩ := List.exists_cons_of_ne_nil
      (show paddedDigits na e ≠ [] by
        intro hcon
        rw [hcon] at hlen
        simp at hlen)
    refine ⟨p, paddedDigits_lt na e p (by rw [hps]; exact List.mem_cons_self p ps), ?_⟩
    simp only [printBody, if_neg he]
    obtain ⟨t, ht⟩ : ∃ t, (paddedDigits na e).length - e = t + 1 := by
      refine ⟨(paddedDigits na e).length - e - 1, ?_⟩
      omega
    rw [ht, hps, List.take_succ_cons, List.map_cons]
    exact ⟨(ps.take t).map digitChar ++
      '.' :: ((p :: ps).drop (t + 1)).map digitChar, rfl⟩

/-- The decimal printer and parser are inverse on every numeral. -/
theorem parseDec_printDec (d : Dec) : parseDec (printDec d) = some d := by
  obtain ⟨m, e⟩ := d
  by_cases hm : m < 0
  · rw [printDec, if_pos hm]
    simp only [parseDec, eq_self_iff_true, if_true]
    rw [parseUnsigned_printBody]
    simp only [Option.map_some', Option.some.injEq, Dec.mk.injEq, and_true]
    omega
  · rw [printDec, if_neg hm]
    obtain ⟨d0, hd0, rest, hbody⟩ := printBody_head (Dec.mk m e).m.natAbs (Dec.mk m e).e
    rw [hbody]
    simp only [parseDec]
    rw [if_neg (digitChar_ne_dash d0 hd0), ← hbody, parseUnsigned_printBody]
    simp only [Option.some.injEq, Dec.mk.injEq, and_true]
    omega

/-- The printed form of a numeral is never the empty field. -/
theorem printDec_ne_nil (d : Dec) : printDec d ≠ [] := by
  obtain ⟨m, e⟩ := d
  by_cases hm : m < 0
  · rw [printDec, if_pos hm]
    exact List.cons_ne_nil _ _
  · rw [printDec, if_neg hm]
    obtain ⟨d0, _, rest, hbody⟩ := printBody_head (Dec.mk m e).m.natAbs (Dec.mk m e).e
    rw [hbody]
    exact List.cons_ne_nil _ _

/-- Reading back one written CSV cell recovers the cell, missing values
included. -/
theorem readCSVCell_writeCSVCell (c : CellD) :
    readCSVCell (writeCSVCell c) = some c := by
  cases c with
  | none => rfl
  | some d =>
      show readCSVCell (String.mk (printDec d)) = some (some d)
      have hne : String.mk (printDec d) ≠ "" := by
        intro hcon
        exact printDec_ne_nil d (congrArg String.data hcon)
      rw [readCSVCell, if_neg hne,
        show (String.mk (printDec d)).data = printDec d from rfl,
        parseDec_printDec]
      rfl

/-- Reading back a whole written record recovers it cell by cell. -/
theorem mapMOpt_write_read (r : List CellD) :
    mapMOpt readCSVCell (r.map writeCSVCell) = some r := by
  induction r with
  | nil => rfl
  | cons c cs ih =>
      rw [List.map_cons, mapMOpt, readCSVCell_writeCSVCell, ih]

/-- A successful element-wise read preserves length. -/
theorem mapMOpt_length (f : α → Option β) :
    ∀ (l : List α) (r : List β), mapMOpt f l = some r → r.length = l.length := by
  intro l
  induction l with
  | nil =>
      intro r h
      cases h
      rfl
  | cons a as ih =>
      intro r h
      rw [mapMOpt] at h
      cases hfa : f a with
      | none => rw [hfa] at h; cases h
      | some b =>
          cases hrest : mapMOpt f as with
          | none => rw [hfa, hrest] at h; cases h
          | some bs =>
              rw [hfa, hrest] at h
              cases h
              simp [ih bs hrest]

/-- A successful element-wise read maps each input position to an output
produced from it. -/
theorem mapMOpt_get (f : α → Option β) :
    ∀ (l : List α) (r : List β), mapMOpt f l = some r →
      ∀ (i : ℕ) (x : α), l[i]? = some x → ∃ y, r[i]? = some y ∧ f x = some y := by
  intro l
  induction l with
  | nil =>
      intro r h i x hx
      cases hx
  | cons a as ih =>
      intro r h i x hx
      rw [mapMOpt] at h
      cases hfa : f a with
      | none => rw [hfa] at h; cases h
      | some b =>
          cases hrest : mapMOpt f as with
          | none => rw [hfa, hrest] at h; cases h
          | some bs =>
              rw [hfa, hrest] at h
              cases h
              cases i with
              | zero =>
                  rw [List.getElem?_cons_zero] at hx
                  cases hx
                  exact ⟨b, by rw [List.getElem?_cons_zero], hfa⟩
              | succ k =>
                  rw [List.getElem?_cons_succ] at hx
                  simpa only [List.getElem?_cons_succ] using ih bs hrest k x hx

/-- C3: every valid 20-field input row read into a PatientRecord writes
to CSV and reads back as the identical record, the `.` sentinel having
become an absent value on the way in and the absent value an empty CSV
field and back on the way out. -/
theorem csv_roundtrip (tokens : List String) (r : List CellD)
    (h : parseRawRow tokens = some r) :
    readCSVRow (writeCSVRow r) = some r ∧
    ∀ i : ℕ, tokens[i]? = some (".") → r[i]? = some none := by
  rw [parseRawRow] at h
  by_cases hlen : tokens.length = 20
  case neg => rw [if_neg hlen] at h; cases h
  rw [if_pos hlen] at h
  have hrlen : r.length = 20 := by
    rw [mapMOpt_length parseToken tokens r h, hlen]
  constructor
  · rw [readCSVRow, writeCSVRow,
      if_pos (by rw [List.length_map, hrlen])]
    exact mapMOpt_write_read r
  · intro i hi
    obtain ⟨y, hy, hfy⟩ := mapMOpt_get parseToken tokens r h i (".") hi
    rw [show parseToken (".") = some none from rfl] at hfy
    cases hfy
    exact hy

/-- C3 witness: the concrete line
`1 400 2 1 21464 1 1 1 1 1.0 14.5 261 . 156 1718 137.95 172 190 12.2 4`
parses (its `.` field, `chol`, becoming absent), round-trips through the
CSV unchanged, and keeps position 12 absent. -/
theorem csv_roundtrip_witness :
    readCSVRow (writeCSVRow recordC3) = some recordC3 ∧
    recordC3[12]? = some none := by
  have H := csv_roundtrip tokensC3 recordC3 (by decide)
  exact ⟨H.1, H.2 12 (by decide)⟩

/-- C10 witness: the concrete missing-file run reports the
file-not-found prefix and closes nothing. -/
theorem cleanup_skips_unbound_witness :
    mainRun envNoFile =
      { caught := some (Exc.fileNotFound ("pbc.dat.txt")),
        msgPrefix := some ("Error: File not found - "),
        propagated := false, connBound := false, cursorBound := false,
        connClosed := false, cursorClosed := false } :=
  cleanup_skips_unbound envNoFile (Exc.fileNotFound ("pbc.dat.txt")) rfl

end PBC
